import Mathlib

/-!
Verification of the spreadsheet-to-remote-order synchronization engine
(manager.py and sos_inventory_integration/sos_api.py), shallowly embedded.

Modelling conventions:
* Python floats are modelled as rationals; Python round(x, 2) is modelled
  by round2 below (ties never arise in the facts proved here).
* The md5 content hashes (sheet fingerprint, row signature) are modelled by
  their pre-image strings: the digest of an injective hash carries exactly
  the information of its input, and no property proved here depends on
  collisions.
* Network collaborators (order search, order fetch, item price lookup, the
  PUT result) are oracles passed in as functions; a price lookup returning
  none models the failure branch of get_item_price_and_details.
* Python dict access with defaults is modelled with Option and getD at the
  places the source uses .get with a default.
-/

namespace SOSInv

/-- Python round(x, 2) of sos_api.calculate_line_amount, on rationals. -/
def round2 (x : ℚ) : ℚ := (round (100 * x) : ℤ) / 100

/-- Python max(list, default=d): d only when the list is empty, otherwise the
genuine maximum (which may be below d). -/
def pyMax (d : Int) : List Int → Int
  | [] => d
  | x :: xs => xs.foldl max x

/-- A sales-order line dict with the fields the engine reads or writes.
unitprice is Option: none models a stored value float() rejects (the
except ValueError branch of the price comparison). -/
structure OrderLine where
  lineNumber : Option Int
  itemId : Option String
  quantity : ℚ
  unitprice : Option ℚ
  amount : ℚ
  duedate : String
  deriving Repr, DecidableEq

/-- line.get("lineNumber", 0) of the max computation in the source. -/
def lineNumberD (l : OrderLine) : Int := l.lineNumber.getD 0

/-- The fetched sales-order object: its header fields (everything except
"lines", kept opaque as key-value pairs) and its line collection. -/
structure SalesOrder where
  header : List (String × String)
  lines : List OrderLine
  deriving Repr, DecidableEq

/-- sos_api.calculate_line_amount: round(quantity * unit_price, 2). -/
def calculate_line_amount (quantity unit_price : ℚ) : ℚ :=
  round2 (quantity * unit_price)

/-- next_line_number = max([line.get("lineNumber", 0) for line in lines], default=0) + 1. -/
def nextLineNumber (lines : List OrderLine) : Int :=
  pyMax 0 (lines.map lineNumberD) + 1

/-- The new-line dict built in both the force-new-line branch and the
no-existing-match branch of add_item_to_sales_order and
add_multiple_items_to_sales_order. -/
def appendNewLine (lines : List OrderLine) (item_id : String) (qty up : ℚ)
    (due : String) : List OrderLine :=
  lines ++ [{ lineNumber := some (nextLineNumber lines), itemId := some item_id,
              quantity := qty, unitprice := some up,
              amount := calculate_line_amount qty up, duedate := due }]

/-- The in-place update of a matched existing line (shared shape of the
match branches of add_item_to_sales_order and
add_multiple_items_to_sales_order): quantity incremented, due date
overwritten, unit price overwritten only when it differs from the fresh
price by more than 0.001 (or is invalid), amount always recomputed from
the fresh price and the new quantity.  Also returns whether the price was
updated and whether the due date changed (the counters of the multi-item
variant). -/
def updateExistingLine (l : OrderLine) (qty up : ℚ) (due : String) :
    OrderLine × Bool × Bool :=
  let newq := l.quantity + qty
  let dueChanged := l.duedate != due
  match l.unitprice with
  | some cp =>
      if |cp - up| > 1 / 1000 then
        ({ l with quantity := newq, duedate := due, unitprice := some up,
                  amount := calculate_line_amount newq up }, true, dueChanged)
      else
        ({ l with quantity := newq, duedate := due,
                  amount := calculate_line_amount newq up }, false, dueChanged)
  | none =>
      ({ l with quantity := newq, duedate := due, unitprice := some up,
                amount := calculate_line_amount newq up }, true, dueChanged)

/-- The first-match scan (str(item_info.get("id")) == str(item_id)) and
in-place update; none when no line matches. -/
def updateFirstMatch (item_id : String) (qty up : ℚ) (due : String) :
    List OrderLine → Option (List OrderLine × Bool × Bool)
  | [] => none
  | l :: rest =>
      if l.itemId == some item_id then
        let u := updateExistingLine l qty up due
        some (u.1 :: rest, u.2)
      else
        match updateFirstMatch item_id qty up due rest with
        | some (rest', pu, dc) => some (l :: rest', pu, dc)
        | none => none

/-- The unit price the engine uses: the fetched price on success, 0.0 when
the lookup failed (both add functions fall back to unit_price = 0.0). -/
def fetchedPrice (getPrice : String → Option ℚ) (item_id : String) : ℚ :=
  (getPrice item_id).getD 0

/-- The per-item line reconciliation shared by both engine entry points:
force-new-line always appends; otherwise the first matching line is
updated in place, and a missing match appends exactly as the force path.
Result: (new line list, matched an existing line, price updated, due
date changed). -/
def reconcileItemLines (lines : List OrderLine) (item_id : String)
    (qty up : ℚ) (force : Bool) (due : String) :
    List OrderLine × Bool × Bool × Bool :=
  if force then
    (appendNewLine lines item_id qty up due, false, false, false)
  else
    match updateFirstMatch item_id qty up due lines with
    | some (lines', pu, dc) => (lines', true, pu, dc)
    | none => (appendNewLine lines item_id qty up due, false, false, false)

/-- sos_api.add_item_to_sales_order: fetch the order, reconcile one item
into its lines, and PUT the whole object back with only "lines"
replaced.  The returned value is the PUT payload. -/
def add_item_to_sales_order (order : SalesOrder) (item_id : String)
    (quantity : ℚ) (getPrice : String → Option ℚ) (force_new_line : Bool)
    (line_date : Option String) (today : String) : SalesOrder :=
  let up := fetchedPrice getPrice item_id
  let due := line_date.getD today
  { order with
    lines := (reconcileItemLines order.lines item_id quantity up force_new_line due).1 }

/-- An extracted item request (the dicts built by
extract_items_from_sheet_data and consumed by the add functions). -/
structure ItemRequest where
  item_id : String
  quantity : ℚ
  name : String
  force_new_line : Bool
  row_date : Option String
  deriving Repr, DecidableEq

/-- The running state of add_multiple_items_to_sales_order: the evolving
line list, the counters of the structured outcome, and the list of items
whose price lookup failed. -/
structure MergeState where
  lines : List OrderLine
  itemsAdded : Nat
  itemsUpdated : Nat
  newLinesForced : Nat
  pricesUpdated : Nat
  amountsUpdated : Nat
  dueDatesUpdated : Nat
  priceErrors : List String
  deriving Repr, DecidableEq

/-- The initial merge state over the fetched order's lines. -/
def initMergeState (lines : List OrderLine) : MergeState :=
  { lines := lines, itemsAdded := 0, itemsUpdated := 0, newLinesForced := 0,
    pricesUpdated := 0, amountsUpdated := 0, dueDatesUpdated := 0,
    priceErrors := [] }

/-- The price_errors entry appended on a failed lookup:
"Item {item_name} (ID: {item_id})". -/
def priceErrorEntry (name item_id : String) : String :=
  "Item " ++ name ++ " (ID: " ++ item_id ++ ")"

/-- One iteration of the item loop of add_multiple_items_to_sales_order:
skip invalid requests, look the price up (0.0 and an error record on
failure), then force-append, update the first match, or append. -/
def mergeStep (getPrice : String → Option ℚ) (today : String)
    (st : MergeState) (req : ItemRequest) : MergeState :=
  if req.item_id = "" ∨ req.quantity ≤ 0 then st
  else
    let due := req.row_date.getD today
    let up := fetchedPrice getPrice req.item_id
    let errs :=
      if (getPrice req.item_id).isNone then
        st.priceErrors ++ [priceErrorEntry req.name req.item_id]
      else st.priceErrors
    if req.force_new_line then
      { st with
        lines := appendNewLine st.lines req.item_id req.quantity up due,
        itemsAdded := st.itemsAdded + 1,
        newLinesForced := st.newLinesForced + 1,
        amountsUpdated := st.amountsUpdated + 1,
        dueDatesUpdated := st.dueDatesUpdated + 1,
        priceErrors := errs }
    else
      match updateFirstMatch req.item_id req.quantity up due st.lines with
      | some (lines', pu, dc) =>
          { st with
            lines := lines',
            itemsUpdated := st.itemsUpdated + 1,
            pricesUpdated := st.pricesUpdated + (if pu then 1 else 0),
            amountsUpdated := st.amountsUpdated + 1,
            dueDatesUpdated := st.dueDatesUpdated + (if dc then 1 else 0),
            priceErrors := errs }
      | none =>
          { st with
            lines := appendNewLine st.lines req.item_id req.quantity up due,
            itemsAdded := st.itemsAdded + 1,
            amountsUpdated := st.amountsUpdated + 1,
            dueDatesUpdated := st.dueDatesUpdated + 1,
            priceErrors := errs }

/-- sos_api.add_multiple_items_to_sales_order: fetch the order, fold the
item loop over its lines, and PUT the whole object back with only
"lines" replaced.  Returns the PUT payload and the final state (whose
counters and price_errors form the returned report). -/
def add_multiple_items_to_sales_order (order : SalesOrder)
    (items : List ItemRequest) (getPrice : String → Option ℚ)
    (today : String) : SalesOrder × MergeState :=
  let st := items.foldl (mergeStep getPrice today) (initMergeState order.lines)
  ({ order with lines := st.lines }, st)

/-- A strptime directive of the formats the source tries: %Y, %y, %m, %d. -/
inductive DatePart
  | Y
  | y
  | m
  | d
  deriving Repr, DecidableEq, BEq

/-- A parsed calendar date (the datetime the source holds after strptime). -/
structure PDate where
  year : Nat
  month : Nat
  day : Nat
  deriving Repr, DecidableEq

/-- One of the source's date format strings: a uniform separator between
three directives (all listed formats have this shape). -/
structure DateFmt where
  sep : Char
  p1 : DatePart
  p2 : DatePart
  p3 : DatePart
  deriving Repr, DecidableEq

/-- Python str.strip() (ASCII whitespace), kernel-reducible. -/
def pyStrip (s : String) : String :=
  String.mk (((s.toList.dropWhile Char.isWhitespace).reverse.dropWhile
    Char.isWhitespace).reverse)

/-- Python str.split(sep) for a one-character separator, kernel-reducible. -/
def pySplitAux (sep : Char) : List Char → List Char → List String
  | [], acc => [String.mk acc.reverse]
  | c :: cs, acc =>
      if c = sep then String.mk acc.reverse :: pySplitAux sep cs []
      else pySplitAux sep cs (c :: acc)

def pySplit (sep : Char) (s : String) : List String :=
  pySplitAux sep s.toList []

/-- Numeric value of a digit string, kernel-reducible. -/
def digitsVal (s : String) : Nat :=
  s.toList.foldl (fun a c => a * 10 + (c.toNat - 48)) 0

def isDigits (s : String) : Bool :=
  !s.toList.isEmpty && s.toList.all Char.isDigit

/-- CPython two-digit-year rule: 0..68 maps to 2000..2068, 69..99 to 1969..1999. -/
def parseYear2 (v : Nat) : Nat :=
  if v ≤ 68 then 2000 + v else 1900 + v

/-- CPython strptime component matching: %Y four digits, %y two digits,
%m one or two digits in 1..12, %d one or two digits in 1..31. -/
def compOk (p : DatePart) (s : String) : Option Nat :=
  if isDigits s then
    let v := digitsVal s
    match p with
    | .Y => if s.length = 4 ∧ 1 ≤ v then some v else none
    | .y => if s.length = 2 then some (parseYear2 v) else none
    | .m => if (s.length = 1 ∨ s.length = 2) ∧ 1 ≤ v ∧ v ≤ 12 then some v else none
    | .d => if (s.length = 1 ∨ s.length = 2) ∧ 1 ≤ v ∧ v ≤ 31 then some v else none
  else none

def isLeap (y : Nat) : Bool :=
  y % 4 = 0 && (y % 100 ≠ 0 || y % 400 = 0)

def daysInMonth (y m : Nat) : Nat :=
  if m = 2 then (if isLeap y then 29 else 28)
  else if m = 4 ∨ m = 6 ∨ m = 9 ∨ m = 11 then 30
  else 31

/-- Collect the three matched directives into a date; datetime construction
rejects a day beyond the month's length (the ValueError strptime raises). -/
def assembleDate (pv : List (DatePart × Nat)) : Option PDate :=
  match pv.find? (fun x => x.1 == DatePart.Y || x.1 == DatePart.y),
        pv.find? (fun x => x.1 == DatePart.m),
        pv.find? (fun x => x.1 == DatePart.d) with
  | some (_, yv), some (_, mv), some (_, dv) =>
      if dv ≤ daysInMonth yv mv then some ⟨yv, mv, dv⟩ else none
  | _, _, _ => none

/-- datetime.strptime against one format of the source's lists. -/
def parseWithFormat (fmt : DateFmt) (s : String) : Option PDate :=
  match pySplit fmt.sep s with
  | [a, b, c] =>
      match compOk fmt.p1 a, compOk fmt.p2 b, compOk fmt.p3 c with
      | some v1, some v2, some v3 =>
          assembleDate [(fmt.p1, v1), (fmt.p2, v2), (fmt.p3, v3)]
      | _, _, _ => none
  | _ => none

/-- The first format that parses wins (the for-loop over date_formats). -/
def tryFormats : List DateFmt → String → Option PDate
  | [], _ => none
  | f :: rest, s =>
      match parseWithFormat f s with
      | some d => some d
      | none => tryFormats rest s

/-- The eight formats of parse_month_from_date, in source order. -/
def monthDateFormats : List DateFmt :=
  [⟨'-', .Y, .m, .d⟩, ⟨'/', .m, .d, .Y⟩, ⟨'/', .d, .m, .Y⟩, ⟨'-', .m, .d, .Y⟩,
   ⟨'-', .d, .m, .Y⟩, ⟨'/', .Y, .m, .d⟩, ⟨'/', .d, .m, .y⟩, ⟨'/', .m, .d, .y⟩]

/-- The five formats of extract_items_from_sheet_data's row-date parse. -/
def rowDateFormats : List DateFmt :=
  [⟨'-', .Y, .m, .d⟩, ⟨'/', .m, .d, .Y⟩, ⟨'/', .d, .m, .Y⟩, ⟨'-', .m, .d, .Y⟩,
   ⟨'-', .d, .m, .Y⟩]

/-- Strip the cell, then keep only the text before the first space (the
time-portion removal both parsers perform). -/
def datePart (s : String) : String :=
  (pySplit ' ' (pyStrip s)).headD ""

/-- strftime("%B"): the full month name. -/
def monthName : Nat → String
  | 1 => "January"
  | 2 => "February"
  | 3 => "March"
  | 4 => "April"
  | 5 => "May"
  | 6 => "June"
  | 7 => "July"
  | 8 => "August"
  | 9 => "September"
  | 10 => "October"
  | 11 => "November"
  | 12 => "December"
  | _ => ""

/-- manager.parse_month_from_date: empty cell fails; otherwise the first
matching format yields the full month name, else none. -/
def parse_month_from_date (date_string : String) : Option String :=
  if pyStrip date_string = "" then none
  else
    match tryFormats monthDateFormats (datePart date_string) with
    | some d => some (monthName d.month)
    | none => none

/-- Python str.title() restricted to a single alphabetic word (the only
inputs the source gives it): first character upper, rest lower. -/
def pyTitleWord (s : String) : String :=
  match s.toList with
  | [] => ""
  | c :: cs => String.mk (c.toUpper :: cs.map Char.toLower)

/-- month_abbrev = month_name[:3].title() (whole name when shorter than 3). -/
def monthAbbrev (month_name : String) : String :=
  pyTitleWord
    (if month_name.length ≥ 3 then String.mk (month_name.toList.take 3)
     else month_name)

/-- manager.build_search_string: none when the identifier cell is empty or
the date cell parses under no format; otherwise the trimmed identifier
with the month pair. -/
def build_search_string (column_b_value column_a_date : String) :
    Option (String × String × String) :=
  if column_b_value = "" then none
  else
    match parse_month_from_date column_a_date with
    | none => none
    | some month => some (pyStrip column_b_value, month, monthAbbrev month)

/-- The four candidate patterns of search_and_update_sales_orders, in
source order: single then double space, full then abbreviated month. -/
def search_patterns (search_string full_month short_month : String) :
    List String :=
  [search_string ++ " " ++ full_month,
   search_string ++ "  " ++ full_month,
   search_string ++ " " ++ short_month,
   search_string ++ "  " ++ short_month]

/-- The composed Search-Pattern Builder: build_search_string then the
four-pattern list. -/
def build_patterns (column_b column_a : String) : Option (List String) :=
  match build_search_string column_b column_a with
  | none => none
  | some (base, full, abb) => some (search_patterns base full abb)

example : parse_month_from_date "2025-09-15" = some "September" := by decide
example : parse_month_from_date "1/15/2024" = some "January" := by decide
example : parse_month_from_date "15/1/2024" = some "January" := by decide
example : parse_month_from_date "2024-02-30" = none := by decide
example : monthAbbrev "September" = "Sep" := by decide

/-- C4: for every non-empty identifier cell and every date cell that parses
under one of the listed formats (yielding month name m), the
Search-Pattern Builder emits exactly the four patterns, in this order:
identifier + one space + full month, identifier + two spaces + full
month, identifier + one space + three-letter title-cased abbreviation,
identifier + two spaces + abbreviation, with the identifier stripped of
surrounding whitespace. -/
theorem C4_search_pattern_order (column_b column_a month : String)
    (hb : column_b ≠ "")
    (hm : parse_month_from_date column_a = some month) :
    build_patterns column_b column_a =
      some [pyStrip column_b ++ " " ++ month,
            pyStrip column_b ++ "  " ++ month,
            pyStrip column_b ++ " " ++ monthAbbrev month,
            pyStrip column_b ++ "  " ++ monthAbbrev month] := by
  simp [build_patterns, build_search_string, hb, hm, search_patterns]

/-- C4 witness: build("HA 101", "2025-09-15") yields exactly the four
patterns of the claim, in order. -/
theorem C4_search_pattern_order_witness :
    build_patterns "HA 101" "2025-09-15" =
      some ["HA 101 September", "HA 101  September", "HA 101 Sep",
            "HA 101  Sep"] :=
  (C4_search_pattern_order "HA 101" "2025-09-15" "September" (by decide)
    (by decide)).trans (by decide)

theorem updateExistingLine_amount (l : OrderLine) (qty up : ℚ) (due : String) :
    ((updateExistingLine l qty up due).1).amount =
      calculate_line_amount ((updateExistingLine l qty up due).1).quantity up := by
  rw [updateExistingLine]
  cases l.unitprice with
  | none => rfl
  | some cp =>
      dsimp only
      by_cases h : |cp - up| > 1 / 1000
      · rw [if_pos h]
      · rw [if_neg h]

theorem updateFirstMatch_mem (item_id : String) (qty up : ℚ) (due : String) :
    ∀ (lines : List OrderLine) (r : List OrderLine × Bool × Bool),
      updateFirstMatch item_id qty up due lines = some r →
      ∀ l ∈ r.1,
        l ∈ lines ∨ l.amount = calculate_line_amount l.quantity up := by
  intro lines
  induction lines with
  | nil => intro r h; simp [updateFirstMatch] at h
  | cons l₀ rest ih =>
      intro r h l hl
      rw [updateFirstMatch] at h
      split at h
      · cases h
        rcases List.mem_cons.mp hl with rfl | hmem
        · right
          exact updateExistingLine_amount l₀ qty up due
        · left; exact List.mem_cons_of_mem _ hmem
      · split at h
        · next rest' pu dc hrec =>
            cases h
            rcases List.mem_cons.mp hl with rfl | hmem
            · left; exact List.mem_cons_self _ _
            · rcases ih (rest', pu, dc) hrec l hmem with h1 | h2
              · left; exact List.mem_cons_of_mem _ h1
              · right; exact h2
        · cases h

/-- C1 (amended): after any reconciliation step of add_item_to_sales_order,
every line of the resulting order is either an untouched original line or
satisfies amount == round(quantity * p, 2) where p is the freshly fetched
unit price — in both the match-and-increment and the force-new-line
paths.  (With the stored unit price instead of p, the invariant can fail:
see the counterexample.) -/
theorem C1_amount_uses_fetched_price (order : SalesOrder) (item_id : String)
    (quantity : ℚ) (getPrice : String → Option ℚ) (force_new_line : Bool)
    (line_date : Option String) (today : String) :
    ∀ l ∈ (add_item_to_sales_order order item_id quantity getPrice
        force_new_line line_date today).lines,
      l ∈ order.lines ∨
        l.amount =
          calculate_line_amount l.quantity (fetchedPrice getPrice item_id) := by
  intro l hl
  unfold add_item_to_sales_order reconcileItemLines at hl
  dsimp only at hl
  split at hl
  · rcases List.mem_append.mp hl with hmem | hnew
    · left; exact hmem
    · right
      rcases List.mem_singleton.mp hnew with rfl
      rfl
  · split at hl
    · next lines' pu dc hrec =>
        exact updateFirstMatch_mem item_id quantity (fetchedPrice getPrice item_id)
          (line_date.getD today) order.lines (lines', pu, dc) hrec l hl
    · rcases List.mem_append.mp hl with hmem | hnew
      · left; exact hmem
      · right
        rcases List.mem_singleton.mp hnew with rfl
        rfl

/-- The line appended in the witness scenario of C1. -/
def c1wLine : OrderLine :=
  { lineNumber := some 1, itemId := some "9", quantity := 3,
    unitprice := some (fetchedPrice (fun _ => some 5) "9"),
    amount := calculate_line_amount 3 (fetchedPrice (fun _ => some 5) "9"),
    duedate := "d" }

/-- C1 witness: the theorem applied to a concrete force-new-line append. -/
theorem C1_amount_uses_fetched_price_witness :
    c1wLine ∈ (⟨[], []⟩ : SalesOrder).lines ∨
      c1wLine.amount =
        calculate_line_amount c1wLine.quantity (fetchedPrice (fun _ => some 5) "9") :=
  C1_amount_uses_fetched_price ⟨[], []⟩ "9" 3 (fun _ => some 5) true none "d"
    c1wLine (List.mem_singleton.mpr rfl)

def c1Line : OrderLine :=
  { lineNumber := some 1, itemId := some "7", quantity := 1000,
    unitprice := some 1, amount := 1000, duedate := "" }

def c1Order : SalesOrder := { header := [], lines := [c1Line] }

def c1Price : String → Option ℚ := fun _ => some (2001 / 2000)

theorem c1_fetched : fetchedPrice c1Price "7" = 2001 / 2000 := rfl

theorem c1_tolerance_kept :
    ¬ (|(1 : ℚ) - fetchedPrice c1Price "7"| > 1 / 1000) := by
  rw [c1_fetched]
  rw [show (1 : ℚ) - 2001 / 2000 = -(1 / 2000) by norm_num]
  rw [abs_neg, abs_of_nonneg (by norm_num : (0 : ℚ) ≤ 1 / 2000)]
  norm_num

theorem c1_amount_eval :
    calculate_line_amount ((1000 : ℚ) + 1000) (fetchedPrice c1Price "7") = 2001 := by
  rw [calculate_line_amount, c1_fetched, round2]
  rw [show (100 : ℚ) * ((1000 + 1000) * (2001 / 2000)) = ((200100 : ℤ) : ℚ) by norm_num]
  rw [round_intCast]
  norm_num

theorem c1_update_eval :
    updateExistingLine c1Line 1000 (fetchedPrice c1Price "7") "2025-01-01" =
      ({ lineNumber := some 1, itemId := some "7", quantity := 2000,
         unitprice := some 1, amount := 2001, duedate := "2025-01-01" },
       false, true) := by
  rw [updateExistingLine]
  dsimp only [c1Line]
  rw [if_neg c1_tolerance_kept]
  rw [c1_amount_eval]
  norm_num
  decide

/-- C1 counterexample: in the match-and-increment path, a fetched price of
1.0005 against a stored price of 1 is within the 0.001 tolerance, so the
stored unit price is kept, yet the amount is recomputed from the fetched
price: the line ends with quantity 2000, unitprice 1 and amount 2001,
while round(quantity * unitprice, 2) = 2000 — off by 1.00, far beyond
floating-point tolerance. -/
theorem C1_amount_invariant_counterexample :
    (add_item_to_sales_order c1Order "7" 1000 c1Price false none
        "2025-01-01").lines =
      [{ lineNumber := some 1, itemId := some "7", quantity := 2000,
         unitprice := some 1, amount := 2001, duedate := "2025-01-01" }] ∧
    round2 ((2000 : ℚ) * 1) = 2000 ∧ ((2001 : ℚ) ≠ 2000) := by
  refine ⟨?_, ?_, by norm_num⟩
  · show (reconcileItemLines [c1Line] "7" 1000 (fetchedPrice c1Price "7")
        false "2025-01-01").1 = _
    rw [reconcileItemLines]
    rw [if_neg (by simp : ¬ (false = true))]
    rw [updateFirstMatch]
    rw [if_pos (by decide : (c1Line.itemId == some "7") = true)]
    rw [c1_update_eval]
  · rw [round2]
    rw [show (100 : ℚ) * (2000 * 1) = ((200000 : ℤ) : ℚ) by norm_num]
    rw [round_intCast]
    norm_num

/-- C2 (amended): no read-only stripping occurs before the PUT: both engine
entry points send the fetched order object back with every header field
(identifiers, computed totals and sync tokens included) exactly as
fetched; only the "lines" collection is replaced.  In particular all
writable header fields are indeed resent unchanged. -/
theorem C2_header_echoed_verbatim (order : SalesOrder) (item_id : String)
    (quantity : ℚ) (getPrice : String → Option ℚ) (force_new_line : Bool)
    (line_date : Option String) (today : String) (items : List ItemRequest) :
    (add_item_to_sales_order order item_id quantity getPrice force_new_line
        line_date today).header = order.header ∧
    (add_multiple_items_to_sales_order order items getPrice today).1.header =
      order.header :=
  ⟨rfl, rfl⟩

def c2Order : SalesOrder :=
  { header := [("id", "92"), ("syncToken", "3"), ("total", "150.00")],
    lines := [] }

/-- C2 counterexample: the PUT payload sent back by the reconciliation
engine still carries the read-only header fields (the identifier and the
sync token) exactly as fetched — nothing is stripped. -/
theorem C2_no_stripping_counterexample :
    ("id", "92") ∈ (add_item_to_sales_order c2Order "7" 1 (fun _ => some 2)
        true none "2025-01-01").header ∧
    ("syncToken", "3") ∈ (add_item_to_sales_order c2Order "7" 1
        (fun _ => some 2) true none "2025-01-01").header := by
  constructor
  · show ("id", "92") ∈ c2Order.header
    decide
  · show ("syncToken", "3") ∈ c2Order.header
    decide

/-- Python "sep".join(xs), kernel-reducible. -/
def joinSep (sep : String) : List String → String
  | [] => ""
  | [x] => x
  | x :: xs => x ++ sep ++ joinSep sep xs

/-- fetch_sheet_data's hash pre-image: the flattened snapshot (each row
joined with commas, rows concatenated) followed by the millisecond
timestamp string appended before hashing.  The md5 digest is modelled by
its pre-image (injective-hash model). -/
def sheet_fingerprint (data : List (List String)) (timestamp : String) :
    String :=
  (data.map (fun row => joinSep "," row)).foldl (· ++ ·) "" ++ timestamp

/-- monitor_sheet's change test: current_hash != prev_hash. -/
def sheet_changed (prev_hash : String) (data : List (List String))
    (timestamp : String) : Bool :=
  sheet_fingerprint data timestamp != prev_hash

theorem string_append_cancel_left (s t u : String) (h : s ++ t = s ++ u) :
    t = u := by
  have hd : (s ++ t).data = (s ++ u).data := by rw [h]
  simp only [String.data_append] at hd
  exact String.ext (List.append_cancel_left hd)

/-- C3 (amended): the fingerprint is a function of the flattened snapshot
content AND the fetch timestamp: for a fixed snapshot, two fetches give
equal fingerprints exactly when their timestamps coincide, and the
caller's change test reports "unchanged" (skipping the cycle) exactly in
that case — so a second, unchanged fetch at a later timestamp does NOT
skip filtering and row processing. -/
theorem C3_fingerprint_salted_by_timestamp (data : List (List String))
    (t1 t2 : String) :
    (sheet_fingerprint data t1 = sheet_fingerprint data t2 ↔ t1 = t2) ∧
    (sheet_changed (sheet_fingerprint data t1) data t2 = false ↔ t2 = t1) := by
  constructor
  · constructor
    · intro h
      exact string_append_cancel_left _ _ _ h
    · intro h
      rw [h]
  · rw [sheet_changed]
    simp only [bne, Bool.not_eq_false', beq_iff_eq]
    constructor
    · intro h
      exact string_append_cancel_left _ _ _ h
    · intro h
      rw [h]

/-- C3 counterexample: the same snapshot fetched at two timestamps yields
different fingerprints, and the caller's comparison then treats the
unchanged sheet as updated (it re-runs filtering instead of skipping). -/
theorem C3_content_hash_counterexample :
    sheet_fingerprint [["a", "b"], ["c"]] "1700000000001" ≠
      sheet_fingerprint [["a", "b"], ["c"]] "1700000000002" ∧
    sheet_changed (sheet_fingerprint [["a", "b"], ["c"]] "1700000000001")
      [["a", "b"], ["c"]] "1700000000002" = true :=
  ⟨by decide, by decide⟩

/-- A search-result order: the fields the resolver reads (the remote id
used for dedup and selection; order.get("id") may be absent). -/
structure SOOrder where
  oid : Option String
  number : Option String
  deriving Repr, DecidableEq

/-- The append-if-unseen step of the pattern loop: an order is appended
only when no collected order shares its remote id (a later copy is
dropped, never substituted). -/
def addUnique (acc : List SOOrder) (o : SOOrder) : List SOOrder :=
  if acc.any (fun e => e.oid == o.oid) then acc else acc ++ [o]

/-- all_orders after search_and_update_sales_orders' pattern loop: each
pattern's parsed result list, in priority order, folded through
addUnique. -/
def union_orders (results : List (List SOOrder)) : List SOOrder :=
  results.foldl (fun acc orders => orders.foldl addUnique acc) []

/-- first_order = all_orders[0]: the candidate selected for the merge. -/
def selected_order (results : List (List SOOrder)) : Option SOOrder :=
  (union_orders results).head?

/-- Specification-side dedup for comparison: keep the earliest copy of
each remote id, drop all later copies. -/
def specDedupKeepFirst : List SOOrder → List SOOrder
  | [] => []
  | o :: rest =>
      o :: specDedupKeepFirst (rest.filter (fun e => !(e.oid == o.oid)))
termination_by l => l.length
decreasing_by
  simp only [List.length_cons]
  exact Nat.lt_succ_of_le (List.length_filter_le _ _)

theorem foldl_addUnique_eq (l : List SOOrder) :
    ∀ acc : List SOOrder,
      l.foldl addUnique acc =
        acc ++ specDedupKeepFirst
          (l.filter (fun o => !(acc.any (fun e => e.oid == o.oid)))) := by
  induction l with
  | nil => intro acc; simp [specDedupKeepFirst]
  | cons o rest ih =>
      intro acc
      rw [List.foldl_cons]
      by_cases h : acc.any (fun e => e.oid == o.oid)
      · rw [show addUnique acc o = acc by rw [addUnique, if_pos h]]
        rw [ih acc]
        congr 2
        rw [List.filter_cons_of_neg]
        simp [h]
      · rw [show addUnique acc o = acc ++ [o] by rw [addUnique, if_neg h]]
        rw [ih (acc ++ [o])]
        rw [List.filter_cons_of_pos (by simp [h])]
        rw [specDedupKeepFirst]
        rw [List.append_assoc, List.singleton_append]
        congr 2
        rw [List.filter_filter]
        refine congrArg specDedupKeepFirst (List.filter_congr ?_)
        intro x _
        simp only [List.any_append, List.any_cons, List.any_nil,
          Bool.or_false, Bool.not_or]
        rw [show (o.oid == x.oid) = (x.oid == o.oid) from Bool.beq_comm]
        rw [Bool.and_comm]

theorem union_orders_eq_spec (results : List (List SOOrder)) :
    union_orders results = specDedupKeepFirst results.flatten := by
  rw [union_orders, ← List.foldl_flatten, foldl_addUnique_eq]
  rw [List.nil_append]
  refine congrArg specDedupKeepFirst ?_
  refine (List.filter_congr ?_).trans (List.filter_true _)
  intro x _
  rfl

theorem specDedupKeepFirst_subset :
    ∀ l : List SOOrder, ∀ x ∈ specDedupKeepFirst l, x ∈ l := by
  intro l
  induction l using specDedupKeepFirst.induct with
  | case1 => intro x hx; simp [specDedupKeepFirst] at hx
  | case2 o rest ih =>
      intro x hx
      rw [specDedupKeepFirst] at hx
      rcases List.mem_cons.mp hx with rfl | hx'
      · exact List.mem_cons_self _ _
      · exact List.mem_cons_of_mem _ (List.mem_of_mem_filter (ih x hx'))

theorem specDedupKeepFirst_nodup :
    ∀ l : List SOOrder, ((specDedupKeepFirst l).map SOOrder.oid).Nodup := by
  intro l
  induction l using specDedupKeepFirst.induct with
  | case1 => simp [specDedupKeepFirst]
  | case2 o rest ih =>
      rw [specDedupKeepFirst]
      rw [List.map_cons, List.nodup_cons]
      refine ⟨?_, ih⟩
      intro hmem
      rcases List.mem_map.mp hmem with ⟨x, hx, hoid⟩
      have hxf := specDedupKeepFirst_subset _ x hx
      have := List.of_mem_filter hxf
      rw [hoid] at this
      simp at this

theorem specDedupKeepFirst_eq_nil_iff (l : List SOOrder) :
    specDedupKeepFirst l = [] ↔ l = [] := by
  cases l with
  | nil => simp [specDedupKeepFirst]
  | cons o rest => rw [specDedupKeepFirst]; simp

/-- C5: the Order Resolver's union contains each remote id exactly once
and equals the priority-ordered flattened results with every later copy
of an already-seen id dropped (the earliest copy is kept); the selected
order is the first element of that union; and no order is selected
exactly when every pattern contributed zero results. -/
theorem C5_union_dedup_selection (results : List (List SOOrder)) :
    union_orders results = specDedupKeepFirst results.flatten ∧
    ((union_orders results).map SOOrder.oid).Nodup ∧
    selected_order results = (union_orders results).head? ∧
    (selected_order results = none ↔ ∀ r ∈ results, r = []) := by
  refine ⟨union_orders_eq_spec results, ?_, rfl, ?_⟩
  · rw [union_orders_eq_spec]
    exact specDedupKeepFirst_nodup _
  · rw [selected_order, union_orders_eq_spec]
    rw [List.head?_eq_none_iff]
    rw [specDedupKeepFirst_eq_nil_iff]
    exact List.flatten_eq_nil_iff

/-- A completed-row dict: the 1-indexed row number, the row's cells, the
header row and the Done? column index attached by filter_completed_rows. -/
structure SheetRow where
  row_number : Nat
  data : List String
  headers : List String
  done_column_index : Nat
  deriving Repr, DecidableEq

/-- create_row_signature's md5 pre-image: the row number and the first
five (stripped) cells, pipe-joined (injective-hash model). -/
def create_row_signature (row : SheetRow) : String :=
  joinSep "|" (toString row.row_number :: (row.data.take 5).map pyStrip)

/-- The row loop of get_new_completed_rows: a row whose signature is
cached or equal to a previous-cycle row's signature is skipped;
otherwise the row is emitted and its signature cached. -/
def select_new_loop (prev : List SheetRow) (cache : List String) :
    List SheetRow → List SheetRow × List String
  | [] => ([], cache)
  | r :: rest =>
      if create_row_signature r ∈ cache then
        select_new_loop prev cache rest
      else if prev.any
          (fun p => create_row_signature p == create_row_signature r) then
        select_new_loop prev cache rest
      else
        (r :: (select_new_loop prev (create_row_signature r :: cache) rest).1,
         (select_new_loop prev (create_row_signature r :: cache) rest).2)

/-- manager.get_new_completed_rows with the processed-rows cache passed
explicitly: the first cycle (previous is none) emits nothing. -/
def get_new_completed_rows (current : List SheetRow)
    (previous : Option (List SheetRow)) (cache : List String) :
    List SheetRow × List String :=
  match previous with
  | none => ([], cache)
  | some prev => select_new_loop prev cache current

/-- A run of poll cycles: each cycle supplies its previous-completed set
(however reconstructed) and its current completed set; emitted rows are
concatenated and the signature cache is threaded through, as in
monitor_sheet's loop. -/
def run_cycles (cache : List String) :
    List (Option (List SheetRow) × List SheetRow) →
      List SheetRow × List String
  | [] => ([], cache)
  | (prev, cur) :: rest =>
      ((get_new_completed_rows cur prev cache).1 ++
        (run_cycles (get_new_completed_rows cur prev cache).2 rest).1,
       (run_cycles (get_new_completed_rows cur prev cache).2 rest).2)

theorem select_new_loop_spec (prev : List SheetRow) :
    ∀ (rows : List SheetRow) (cache : List String),
      ((select_new_loop prev cache rows).1.map create_row_signature).Nodup ∧
      (∀ r ∈ (select_new_loop prev cache rows).1,
        create_row_signature r ∉ cache) ∧
      (∀ s ∈ cache, s ∈ (select_new_loop prev cache rows).2) ∧
      (∀ r ∈ (select_new_loop prev cache rows).1,
        create_row_signature r ∈ (select_new_loop prev cache rows).2) := by
  intro rows
  induction rows with
  | nil => intro cache; simp [select_new_loop]
  | cons r rest ih =>
      intro cache
      rw [select_new_loop]
      by_cases h1 : create_row_signature r ∈ cache
      · rw [if_pos h1]; exact ih cache
      · rw [if_neg h1]
        by_cases h2 : prev.any
            (fun p => create_row_signature p == create_row_signature r)
        · rw [if_pos h2]; exact ih cache
        · rw [if_neg h2]
          obtain ⟨hN, hNotIn, hMono, hIn⟩ := ih (create_row_signature r :: cache)
          refine ⟨?_, ?_, ?_, ?_⟩
          · rw [List.map_cons, List.nodup_cons]
            refine ⟨?_, hN⟩
            intro hmem
            rcases List.mem_map.mp hmem with ⟨x, hx, hsig⟩
            have := hNotIn x hx
            rw [hsig] at this
            exact this (List.mem_cons_self _ _)
          · intro x hx
            rcases List.mem_cons.mp hx with rfl | hx'
            · exact h1
            · intro hc
              exact hNotIn x hx' (List.mem_cons_of_mem _ hc)
          · intro s hs
            exact hMono s (List.mem_cons_of_mem _ hs)
          · intro x hx
            rcases List.mem_cons.mp hx with rfl | hx'
            · exact hMono _ (List.mem_cons_self _ _)
            · exact hIn x hx'

theorem get_new_completed_rows_spec (current : List SheetRow)
    (previous : Option (List SheetRow)) (cache : List String) :
    ((get_new_completed_rows current previous cache).1.map
        create_row_signature).Nodup ∧
    (∀ r ∈ (get_new_completed_rows current previous cache).1,
      create_row_signature r ∉ cache) ∧
    (∀ s ∈ cache, s ∈ (get_new_completed_rows current previous cache).2) ∧
    (∀ r ∈ (get_new_completed_rows current previous cache).1,
      create_row_signature r ∈ (get_new_completed_rows current previous cache).2) := by
  cases previous with
  | none => simp [get_new_completed_rows]
  | some prev => exact select_new_loop_spec prev current cache

theorem run_cycles_spec
    (cycles : List (Option (List SheetRow) × List SheetRow)) :
    ∀ cache : List String,
      ((run_cycles cache cycles).1.map create_row_signature).Nodup ∧
      (∀ r ∈ (run_cycles cache cycles).1, create_row_signature r ∉ cache) ∧
      (∀ s ∈ cache, s ∈ (run_cycles cache cycles).2) ∧
      (∀ r ∈ (run_cycles cache cycles).1,
        create_row_signature r ∈ (run_cycles cache cycles).2) := by
  induction cycles with
  | nil => intro cache; simp [run_cycles]
  | cons cyc rest ih =>
      intro cache
      obtain ⟨prev, cur⟩ := cyc
      obtain ⟨cN, cNotIn, cMono, cIn⟩ :=
        get_new_completed_rows_spec cur prev cache
      obtain ⟨rN, rNotIn, rMono, rIn⟩ :=
        ih (get_new_completed_rows cur prev cache).2
      rw [run_cycles]
      refine ⟨?_, ?_, ?_, ?_⟩
      · rw [List.map_append, List.nodup_append]
        refine ⟨cN, rN, ?_⟩
        intro s hs hs'
        rcases List.mem_map.mp hs with ⟨x, hx, rfl⟩
        rcases List.mem_map.mp hs' with ⟨y, hy, hsig⟩
        exact rNotIn y hy (hsig ▸ cIn x hx)
      · intro x hx
        rcases List.mem_append.mp hx with hx' | hx'
        · exact cNotIn x hx'
        · intro hc
          exact rNotIn x hx' (cMono _ hc)
      · intro s hs
        exact rMono s (cMono s hs)
      · intro x hx
        rcases List.mem_append.mp hx with hx' | hx'
        · exact rMono _ (cIn x hx')
        · exact rIn x hx'

/-- C6: across any sequence of poll cycles — with the previous-completed
set reconstructed arbitrarily per cycle — the rows emitted as "new"
carry pairwise distinct signatures (so a row counted as new on cycle N
is never reported new on any later cycle, and each distinct signature
is emitted at most once across the whole run), and no emitted signature
was already in the processed-rows cache at the start. -/
theorem C6_each_signature_emitted_at_most_once
    (cycles : List (Option (List SheetRow) × List SheetRow))
    (cache : List String) :
    ((run_cycles cache cycles).1.map create_row_signature).Nodup ∧
    ∀ r ∈ (run_cycles cache cycles).1, create_row_signature r ∉ cache :=
  ⟨(run_cycles_spec cycles cache).1, (run_cycles_spec cycles cache).2.1⟩

def pad2 (n : Nat) : String :=
  if n < 10 then "0" ++ toString n else toString n

def pad4 (n : Nat) : String :=
  if n < 10 then "000" ++ toString n
  else if n < 100 then "00" ++ toString n
  else if n < 1000 then "0" ++ toString n
  else toString n

/-- strftime("%Y-%m-%d") of the parsed row date. -/
def formatISO (d : PDate) : String :=
  pad4 d.year ++ "-" ++ pad2 d.month ++ "-" ++ pad2 d.day

/-- The row-date extraction at the top of extract_items_from_sheet_data:
column A of the row, parsed with the five listed formats; none when the
cell is empty, missing or unparseable (the engine then falls back to
the current date per line). -/
def parse_row_date (cells : List String) : Option String :=
  match cells.head? with
  | none => none
  | some c0 =>
      if c0 = "" then none
      else
        match tryFormats rowDateFormats (datePart c0) with
        | some d => some (formatISO d)
        | none => none

/-- One column of the extraction loop: skipped (none) when the quantity
cell is empty, unparseable or not positive, when the item-id cell is
missing or the empty string, or when the stripped item id is the
sentinel "0". -/
def extractColumn (parseQ : String → Option ℚ)
    (item_ids item_names quantities : List String)
    (row_date : Option String) (col : Nat) : Option ItemRequest :=
  match quantities.get? col with
  | none => none
  | some qv =>
      if qv = "" then none
      else
        match parseQ qv with
        | none => none
        | some q =>
            if q ≤ 0 then none
            else
              match item_ids.get? col with
              | none => none
              | some iid =>
                  if iid = "" then none
                  else if pyStrip iid = "0" then none
                  else
                    some { item_id := pyStrip iid, quantity := q,
                           name :=
                             match item_names.get? col with
                             | some n =>
                                 if n = "" then "Item " ++ pyStrip iid
                                 else pyStrip n
                             | none => "Item " ++ pyStrip iid,
                           force_new_line := true,
                           row_date := row_date }

/-- manager.extract_items_from_sheet_data, parametrized by the float()
parser (a quantity cell float() rejects maps to none).  Item ids come
from sheet row 1, names from sheet row 2, quantities from the processed
row from column index 3 on; fewer than three sheet rows yield [].  The
informational per-item price lookup in the source affects only logging
and is omitted. -/
def extract_items_from_sheet_data (parseQ : String → Option ℚ)
    (sheet_data : List (List String)) (row : SheetRow) : List ItemRequest :=
  if sheet_data.length < 3 then []
  else
    (List.range row.data.length).filterMap (fun col =>
      if col < 3 then none
      else
        extractColumn parseQ (sheet_data.headD [])
          ((sheet_data.drop 1).headD []) row.data
          (parse_row_date row.data) col)

theorem extractColumn_valid (parseQ : String → Option ℚ)
    (item_ids item_names quantities : List String)
    (row_date : Option String) (col : Nat) (e : ItemRequest)
    (h : extractColumn parseQ item_ids item_names quantities row_date col =
      some e) :
    e.item_id ≠ "0" ∧ 0 < e.quantity ∧
      ∃ raw, item_ids.get? col = some raw ∧ raw ≠ "" ∧
        e.item_id = pyStrip raw := by
  rw [extractColumn] at h
  split at h
  · cases h
  · split at h
    · cases h
    · split at h
      · cases h
      · split at h
        · cases h
        · split at h
          · cases h
          · next iid hids =>
              split at h
              · cases h
              · split at h
                · cases h
                · next hq _ hiid hsent =>
                    cases h
                    refine ⟨hsent, lt_of_not_le hq, iid, hids, hiid, rfl⟩

/-- C7 (amended): every extracted entry has a stripped item id different
from the sentinel "0", a positive quantity, and comes from a non-empty
raw item-id cell — but the emitted item id is the STRIPPED cell, so a
whitespace-only id cell yields an entry whose item id is the empty
string (see the counterexample); with that exception, entries with
empty or missing ids, and entries whose quantity cell is empty,
unparseable, zero or negative, are excluded. -/
theorem C7_extracted_entries_valid (parseQ : String → Option ℚ)
    (sheet_data : List (List String)) (row : SheetRow) :
    ∀ e ∈ extract_items_from_sheet_data parseQ sheet_data row,
      e.item_id ≠ "0" ∧ 0 < e.quantity ∧
        ∃ col raw, (sheet_data.headD []).get? col = some raw ∧ raw ≠ "" ∧
          e.item_id = pyStrip raw := by
  intro e he
  rw [extract_items_from_sheet_data] at he
  split at he
  · cases he
  · rcases List.mem_filterMap.mp he with ⟨col, _, hsome⟩
    split at hsome
    · cases hsome
    · obtain ⟨h0, hq, raw, hraw⟩ :=
        extractColumn_valid parseQ (sheet_data.headD [])
          ((sheet_data.drop 1).headD []) row.data
          (parse_row_date row.data) col e hsome
      exact ⟨h0, hq, col, raw, hraw⟩

def c7wSheet : List (List String) :=
  [["", "", "", "42"], ["", "", "", "Widget"], ["", "", "", ""]]

def c7wRow : SheetRow :=
  { row_number := 5, data := ["", "", "", "3"], headers := [],
    done_column_index := 0 }

def c7wParse : String → Option ℚ := fun s => if s = "3" then some 3 else none

def c7wEntry : ItemRequest :=
  { item_id := "42", quantity := 3, name := "Widget", force_new_line := true,
    row_date := none }

/-- C7 witness: the theorem applied to a concrete extraction. -/
theorem C7_extracted_entries_valid_witness :
    c7wEntry.item_id ≠ "0" ∧ 0 < c7wEntry.quantity ∧
      ∃ col raw, (c7wSheet.headD []).get? col = some raw ∧ raw ≠ "" ∧
        c7wEntry.item_id = pyStrip raw :=
  C7_extracted_entries_valid c7wParse c7wSheet c7wRow c7wEntry (by decide)

def c7Sheet : List (List String) :=
  [["", "", "", "  "], ["", "", "", "Widget"], ["", "", "", ""]]

def c7Row : SheetRow :=
  { row_number := 5, data := ["", "", "", "5"], headers := [],
    done_column_index := 0 }

def c7Parse : String → Option ℚ := fun s => if s = "5" then some 5 else none

/-- C7 counterexample: an item-id cell holding only whitespace passes the
source's emptiness check (which runs before stripping) and is not the
sentinel, so the extraction emits an entry whose item id is the empty
string — contradicting "no entry with an empty or missing item id". -/
theorem C7_empty_id_counterexample :
    (extract_items_from_sheet_data c7Parse c7Sheet c7Row).map
      ItemRequest.item_id = [""] := by
  decide

theorem le_foldl_max_init (l : List Int) :
    ∀ a : Int, a ≤ l.foldl max a := by
  induction l with
  | nil => intro a; exact le_refl a
  | cons b l ih =>
      intro a
      rw [List.foldl_cons]
      exact le_trans (le_max_left a b) (ih (max a b))

theorem mem_le_foldl_max (l : List Int) :
    ∀ (a x : Int), x ∈ l → x ≤ l.foldl max a := by
  induction l with
  | nil => intro a x hx; cases hx
  | cons b l ih =>
      intro a x hx
      rw [List.foldl_cons]
      rcases List.mem_cons.mp hx with rfl | hx'
      · exact le_trans (le_max_right a x) (le_foldl_max_init l (max a x))
      · exact ih (max a b) x hx'

theorem pyMax_ge (d : Int) (l : List Int) : ∀ x ∈ l, x ≤ pyMax d l := by
  cases l with
  | nil => intro x hx; cases hx
  | cons a xs =>
      intro x hx
      rw [pyMax]
      rcases List.mem_cons.mp hx with rfl | hx'
      · exact le_foldl_max_init xs x
      · exact mem_le_foldl_max xs a x hx'

theorem updateExistingLine_lineNumber (l : OrderLine) (qty up : ℚ)
    (due : String) :
    ((updateExistingLine l qty up due).1).lineNumber = l.lineNumber := by
  rw [updateExistingLine]
  cases l.unitprice with
  | none => rfl
  | some cp =>
      dsimp only
      by_cases h : |cp - up| > 1 / 1000
      · rw [if_pos h]
      · rw [if_neg h]

theorem updateFirstMatch_lineNumbers (item_id : String) (qty up : ℚ)
    (due : String) :
    ∀ (lines : List OrderLine) (r : List OrderLine × Bool × Bool),
      updateFirstMatch item_id qty up due lines = some r →
      r.1.map lineNumberD = lines.map lineNumberD := by
  intro lines
  induction lines with
  | nil => intro r h; simp [updateFirstMatch] at h
  | cons l₀ rest ih =>
      intro r h
      rw [updateFirstMatch] at h
      split at h
      · cases h
        rw [List.map_cons, List.map_cons]
        rw [show lineNumberD (updateExistingLine l₀ qty up due).1 =
            lineNumberD l₀ by
          rw [lineNumberD, lineNumberD, updateExistingLine_lineNumber]]
      · split at h
        · next rest' pu dc hrec =>
            cases h
            rw [List.map_cons, List.map_cons, ih (rest', pu, dc) hrec]
        · cases h

theorem appendNewLine_lineNumbers (lines : List OrderLine) (item_id : String)
    (qty up : ℚ) (due : String) :
    (appendNewLine lines item_id qty up due).map lineNumberD =
      lines.map lineNumberD ++ [pyMax 0 (lines.map lineNumberD) + 1] := by
  rw [appendNewLine, List.map_append]
  rfl

theorem mergeStep_lineNumbers (getPrice : String → Option ℚ) (today : String)
    (st : MergeState) (req : ItemRequest) :
    (mergeStep getPrice today st req).lines.map lineNumberD =
        st.lines.map lineNumberD ∨
      (mergeStep getPrice today st req).lines.map lineNumberD =
        st.lines.map lineNumberD ++
          [pyMax 0 (st.lines.map lineNumberD) + 1] := by
  by_cases hskip : (req.item_id = "" ∨ req.quantity ≤ 0)
  · left; rw [mergeStep, if_pos hskip]
  · rw [mergeStep, if_neg hskip]
    dsimp only
    by_cases hf : req.force_new_line = true
    · right
      rw [if_pos hf]
      exact appendNewLine_lineNumbers st.lines req.item_id req.quantity
        (fetchedPrice getPrice req.item_id) (req.row_date.getD today)
    · rw [if_neg hf]
      rcases hrec : updateFirstMatch req.item_id req.quantity
          (fetchedPrice getPrice req.item_id) (req.row_date.getD today)
          st.lines with _ | ⟨lines', pu, dc⟩
      · right
        dsimp only
        exact appendNewLine_lineNumbers st.lines req.item_id req.quantity
          (fetchedPrice getPrice req.item_id) (req.row_date.getD today)
      · left
        dsimp only
        exact updateFirstMatch_lineNumbers req.item_id req.quantity
          (fetchedPrice getPrice req.item_id) (req.row_date.getD today)
          st.lines (lines', pu, dc) hrec

/-- The shape maintained by the merge loop over the line numbers: the
original numbers as an unchanged prefix, followed by the appended
numbers, strictly increasing and each above every original number. -/
def ExtOk (base l : List Int) : Prop :=
  ∃ ext, l = base ++ ext ∧ List.Pairwise (· < ·) ext ∧
    ∀ y ∈ ext, ∀ x ∈ base, x < y

theorem ExtOk_append (base l : List Int) (h : ExtOk base l) :
    ExtOk base (l ++ [pyMax 0 l + 1]) := by
  obtain ⟨ext, rfl, hpw, hbound⟩ := h
  refine ⟨ext ++ [pyMax 0 (base ++ ext) + 1], by rw [List.append_assoc], ?_, ?_⟩
  · rw [List.pairwise_append]
    refine ⟨hpw, List.pairwise_singleton _ _, ?_⟩
    intro a ha b hb
    rcases List.mem_singleton.mp hb with rfl
    exact lt_of_le_of_lt (pyMax_ge 0 _ a (List.mem_append_right base ha))
      (lt_add_one _)
  · intro y hy x hx
    rcases List.mem_append.mp hy with hy' | hy'
    · exact hbound y hy' x hx
    · rcases List.mem_singleton.mp hy' with rfl
      exact lt_of_le_of_lt (pyMax_ge 0 _ x (List.mem_append_left ext hx))
        (lt_add_one _)

theorem merge_fold_ExtOk (getPrice : String → Option ℚ) (today : String)
    (base : List Int) :
    ∀ (items : List ItemRequest) (st : MergeState),
      ExtOk base (st.lines.map lineNumberD) →
      ExtOk base
        ((items.foldl (mergeStep getPrice today) st).lines.map lineNumberD) := by
  intro items
  induction items with
  | nil => intro st h; exact h
  | cons req rest ih =>
      intro st h
      rw [List.foldl_cons]
      refine ih (mergeStep getPrice today st req) ?_
      rcases mergeStep_lineNumbers getPrice today st req with heq | heq
      · rw [heq]; exact h
      · rw [heq]; exact ExtOk_append base _ h

/-- C8: when the fetched order's lines carry pairwise distinct lineNumber
values, the merge of add_multiple_items_to_sales_order preserves that
uniqueness (each appended line gets max existing + 1 at the moment of
its append), and the lineNumbers of the appended lines — the suffix
past the original line count — are strictly increasing. -/
theorem C8_lineNumbers_unique_and_increasing (order : SalesOrder)
    (items : List ItemRequest) (getPrice : String → Option ℚ) (today : String)
    (h : (order.lines.map lineNumberD).Nodup) :
    ((add_multiple_items_to_sales_order order items getPrice
        today).2.lines.map lineNumberD).Nodup ∧
    List.Pairwise (· < ·)
      (((add_multiple_items_to_sales_order order items getPrice
          today).2.lines.map lineNumberD).drop order.lines.length) := by
  have hok : ExtOk (order.lines.map lineNumberD)
      ((initMergeState order.lines).lines.map lineNumberD) :=
    ⟨[], by simp [initMergeState], List.Pairwise.nil, by simp⟩
  obtain ⟨ext, heq, hpw, hbound⟩ :=
    merge_fold_ExtOk getPrice today (order.lines.map lineNumberD) items
      (initMergeState order.lines) hok
  rw [show (add_multiple_items_to_sales_order order items getPrice
      today).2.lines =
      (items.foldl (mergeStep getPrice today)
        (initMergeState order.lines)).lines from rfl]
  rw [heq]
  constructor
  · rw [List.nodup_append]
    refine ⟨h, hpw.imp ne_of_lt, ?_⟩
    intro x hx hx'
    exact absurd (hbound x hx' x hx) (lt_irrefl x)
  · rw [show order.lines.length = (order.lines.map lineNumberD).length from
      (List.length_map _ _).symm]
    rw [List.drop_left]
    exact hpw

/-- C8 witness: the theorem applied to a concrete two-append merge. -/
theorem C8_lineNumbers_unique_and_increasing_witness :
    ((add_multiple_items_to_sales_order ⟨[], []⟩
        [{ item_id := "1", quantity := 2, name := "a", force_new_line := true,
           row_date := none },
         { item_id := "2", quantity := 3, name := "b", force_new_line := true,
           row_date := none }] (fun _ => some 1) "d").2.lines.map
        lineNumberD).Nodup ∧
    List.Pairwise (· < ·)
      (((add_multiple_items_to_sales_order ⟨[], []⟩
          [{ item_id := "1", quantity := 2, name := "a",
             force_new_line := true, row_date := none },
           { item_id := "2", quantity := 3, name := "b",
             force_new_line := true, row_date := none }]
          (fun _ => some 1) "d").2.lines.map lineNumberD).drop
        (List.length (SalesOrder.lines ⟨[], []⟩))) :=
  C8_lineNumbers_unique_and_increasing ⟨[], []⟩
    [{ item_id := "1", quantity := 2, name := "a", force_new_line := true,
       row_date := none },
     { item_id := "2", quantity := 3, name := "b", force_new_line := true,
       row_date := none }] (fun _ => some 1) "d" (by simp)

theorem calculate_line_amount_zero (q : ℚ) : calculate_line_amount q 0 = 0 := by
  rw [calculate_line_amount, mul_zero, round2, mul_zero, round_zero]
  simp

theorem mergeStep_force_mono (getPrice : String → Option ℚ) (today : String)
    (st : MergeState) (req : ItemRequest)
    (hf : req.force_new_line = true) :
    (∀ l ∈ st.lines, l ∈ (mergeStep getPrice today st req).lines) ∧
    (∀ s ∈ st.priceErrors,
      s ∈ (mergeStep getPrice today st req).priceErrors) := by
  by_cases hskip : (req.item_id = "" ∨ req.quantity ≤ 0)
  · rw [mergeStep, if_pos hskip]
    exact ⟨fun l hl => hl, fun s hs => hs⟩
  · rw [mergeStep, if_neg hskip]
    dsimp only
    rw [if_pos hf]
    constructor
    · intro l hl
      exact List.mem_append_left _ hl
    · intro s hs
      dsimp only
      split
      · exact List.mem_append_left _ hs
      · exact hs

theorem fold_force_mono (getPrice : String → Option ℚ) (today : String) :
    ∀ (items : List ItemRequest) (st : MergeState),
      (∀ r ∈ items, r.force_new_line = true) →
      (∀ l ∈ st.lines,
        l ∈ (items.foldl (mergeStep getPrice today) st).lines) ∧
      (∀ s ∈ st.priceErrors,
        s ∈ (items.foldl (mergeStep getPrice today) st).priceErrors) := by
  intro items
  induction items with
  | nil => intro st _; exact ⟨fun l hl => hl, fun s hs => hs⟩
  | cons r rest ih =>
      intro st hforce
      rw [List.foldl_cons]
      have hstep := mergeStep_force_mono getPrice today st r
        (hforce r (List.mem_cons_self _ _))
      have hrest := ih (mergeStep getPrice today st r)
        (fun x hx => hforce x (List.mem_cons_of_mem _ hx))
      exact ⟨fun l hl => hrest.1 l (hstep.1 l hl),
             fun s hs => hrest.2 s (hstep.2 s hs)⟩

theorem mergeStep_force_fail (getPrice : String → Option ℚ) (today : String)
    (st : MergeState) (req : ItemRequest)
    (hf : req.force_new_line = true) (hid : req.item_id ≠ "")
    (hq : 0 < req.quantity) (hfail : getPrice req.item_id = none) :
    priceErrorEntry req.name req.item_id ∈
      (mergeStep getPrice today st req).priceErrors ∧
    ∃ l ∈ (mergeStep getPrice today st req).lines,
      l.itemId = some req.item_id ∧ l.unitprice = some 0 ∧
        l.quantity = req.quantity ∧ l.amount = 0 := by
  have hskip : ¬(req.item_id = "" ∨ req.quantity ≤ 0) := by
    rintro (h | h)
    · exact hid h
    · exact absurd hq (not_lt.mpr h)
  have hup : fetchedPrice getPrice req.item_id = 0 := by
    rw [fetchedPrice, hfail]
    rfl
  rw [mergeStep, if_neg hskip]
  dsimp only
  rw [if_pos hf]
  constructor
  · dsimp only
    rw [if_pos (by rw [hfail]; rfl : (getPrice req.item_id).isNone = true)]
    exact List.mem_append_right _ (List.mem_singleton.mpr rfl)
  · refine ⟨_, List.mem_append_right _ (List.mem_singleton.mpr rfl),
      rfl, ?_, rfl, ?_⟩
    · rw [hup]
    · show calculate_line_amount req.quantity
        (fetchedPrice getPrice req.item_id) = 0
      rw [hup, calculate_line_amount_zero]

theorem fold_force_fail (getPrice : String → Option ℚ) (today : String) :
    ∀ (items : List ItemRequest) (st : MergeState),
      (∀ r ∈ items, r.force_new_line = true) →
      ∀ req ∈ items, req.item_id ≠ "" → 0 < req.quantity →
        getPrice req.item_id = none →
        priceErrorEntry req.name req.item_id ∈
          (items.foldl (mergeStep getPrice today) st).priceErrors ∧
        ∃ l ∈ (items.foldl (mergeStep getPrice today) st).lines,
          l.itemId = some req.item_id ∧ l.unitprice = some 0 ∧
            l.quantity = req.quantity ∧ l.amount = 0 := by
  intro items
  induction items with
  | nil => intro st _ req hreq; cases hreq
  | cons r rest ih =>
      intro st hforce req hreq hid hq hfail
      rw [List.foldl_cons]
      rcases List.mem_cons.mp hreq with rfl | hreq'
      · have hstep := mergeStep_force_fail getPrice today st req
          (hforce req (List.mem_cons_self _ _)) hid hq hfail
        have hmono := fold_force_mono getPrice today rest
          (mergeStep getPrice today st req)
          (fun x hx => hforce x (List.mem_cons_of_mem _ hx))
        obtain ⟨l, hl, hprops⟩ := hstep.2
        exact ⟨hmono.2 _ hstep.1, l, hmono.1 l hl, hprops⟩
      · exact ih (mergeStep getPrice today st r)
          (fun x hx => hforce x (List.mem_cons_of_mem _ hx)) req hreq' hid hq
          hfail

/-- C9: in the engine's always-force-new-line mode, every valid requested
item whose price lookup fails is still written into the order — a line
with its item id, unit price 0 and amount 0 appears in the final line
collection — and the item is recorded in the reported price_errors
list. -/
theorem C9_failed_price_written_and_reported (order : SalesOrder)
    (items : List ItemRequest) (getPrice : String → Option ℚ) (today : String)
    (hforce : ∀ r ∈ items, r.force_new_line = true)
    (req : ItemRequest) (hreq : req ∈ items) (hid : req.item_id ≠ "")
    (hq : 0 < req.quantity) (hfail : getPrice req.item_id = none) :
    priceErrorEntry req.name req.item_id ∈
      (add_multiple_items_to_sales_order order items getPrice
        today).2.priceErrors ∧
    ∃ l ∈ (add_multiple_items_to_sales_order order items getPrice
        today).2.lines,
      l.itemId = some req.item_id ∧ l.unitprice = some 0 ∧
        l.quantity = req.quantity ∧ l.amount = 0 :=
  fold_force_fail getPrice today items (initMergeState order.lines) hforce
    req hreq hid hq hfail

/-- C9 witness: the theorem applied to a concrete failed lookup. -/
theorem C9_failed_price_written_and_reported_witness :
    priceErrorEntry "N" "x" ∈
      (add_multiple_items_to_sales_order ⟨[], []⟩
        [{ item_id := "x", quantity := 1, name := "N", force_new_line := true,
           row_date := none }] (fun _ => none) "d").2.priceErrors ∧
    ∃ l ∈ (add_multiple_items_to_sales_order ⟨[], []⟩
        [{ item_id := "x", quantity := 1, name := "N", force_new_line := true,
           row_date := none }] (fun _ => none) "d").2.lines,
      l.itemId = some "x" ∧ l.unitprice = some 0 ∧
        l.quantity = 1 ∧ l.amount = 0 :=
  C9_failed_price_written_and_reported ⟨[], []⟩
    [{ item_id := "x", quantity := 1, name := "N", force_new_line := true,
       row_date := none }] (fun _ => none) "d" (by decide)
    { item_id := "x", quantity := 1, name := "N", force_new_line := true,
      row_date := none } (by decide) (by decide) (by decide) rfl

/-- An order-level remote operation issued by the row-processing path. -/
inductive RemoteCall
  | searchOrders (query : String)
  | getOrder (order_id : String)
  | putOrder (order_id : String)
  deriving Repr, DecidableEq

/-- The remote collaborators of one row-processing pass: the order search
(none = failed search or unparsable response), the order fetch, the PUT
outcome, the item price lookup, the float() parser and the current
date. -/
structure SOSEnv where
  searchResult : String → Option (List SOOrder)
  fetchOrder : String → Option SalesOrder
  putOk : String → Bool
  getPrice : String → Option ℚ
  parseQ : String → Option ℚ
  today : String

/-- manager.get_column_a_value: data[0].strip(); none when the row has no
column A. -/
def get_column_a_value (row : SheetRow) : Option String :=
  match row.data.head? with
  | none => none
  | some c => some (pyStrip c)

/-- manager.get_column_b_value: data[1].strip(); none when the row has no
column B. -/
def get_column_b_value (row : SheetRow) : Option String :=
  match (row.data.drop 1).head? with
  | none => none
  | some c => some (pyStrip c)

/-- manager.validate_row_data: the row needs data, at least two columns,
and non-empty stripped column A and column B values. -/
def validate_row_data (row : SheetRow) : Bool :=
  match row.data with
  | [] => false
  | _ =>
      if row.data.length < 2 then false
      else
        match get_column_a_value row with
        | none => false
        | some a =>
            if a = "" then false
            else
              match get_column_b_value row with
              | none => false
              | some b => b != ""

/-- The order-level calls and outcome of one sos_api.add_item_to_sales_order
invocation: GET the order; when the GET fails no PUT is attempted,
otherwise the full order is PUT back. -/
def add_item_calls (env : SOSEnv) (order_id : String) :
    Bool × List RemoteCall :=
  match env.fetchOrder order_id with
  | none => (false, [RemoteCall.getOrder order_id])
  | some _ =>
      (env.putOk order_id,
       [RemoteCall.getOrder order_id, RemoteCall.putOrder order_id])

/-- manager.add_items_to_sales_order: one add_item call per item, overall
success when at least one addition succeeded. -/
def add_items_to_sales_order (env : SOSEnv) (order_id : String)
    (items : List ItemRequest) : Bool × List RemoteCall :=
  items.foldl
    (fun acc _ =>
      (acc.1 || (add_item_calls env order_id).1,
       acc.2 ++ (add_item_calls env order_id).2))
    (false, [])

/-- manager.search_and_update_sales_orders: one search per pattern (a
failed or unparsable search contributes zero results), results unioned
and de-duplicated by remote id, the first order selected; an empty
union or a missing id on the first order is a row failure with no
further calls; otherwise the items are added to the selected order. -/
def search_and_update_sales_orders (env : SOSEnv) (patterns : List String)
    (items : List ItemRequest) : Bool × List RemoteCall :=
  match (union_orders
      (patterns.map (fun p => (env.searchResult p).getD []))).head? with
  | none => (false, patterns.map RemoteCall.searchOrders)
  | some o =>
      match o.oid with
      | none => (false, patterns.map RemoteCall.searchOrders)
      | some oid =>
          ((add_items_to_sales_order env oid items).1,
           patterns.map RemoteCall.searchOrders ++
             (add_items_to_sales_order env oid items).2)

/-- The outcome of processing one completed row: the returned success
flag, whether the row was colored with the success color, and the
order-level remote calls issued. -/
structure ProcessResult where
  success : Bool
  coloredSuccess : Bool
  calls : List RemoteCall
  deriving Repr, DecidableEq

/-- manager.process_completed_row: validate the row, build the search
patterns, extract items from the cached sheet; an empty item list is
reported successful (success coloring) with no remote order operation;
otherwise search_and_update_sales_orders decides the outcome and the
row is colored accordingly. -/
def process_completed_row (env : SOSEnv) (row : SheetRow)
    (sheet_cache : Option (List (List String))) : ProcessResult :=
  if !validate_row_data row then ⟨false, false, []⟩
  else
    match build_search_string ((get_column_b_value row).getD "")
        ((get_column_a_value row).getD "") with
    | none => ⟨false, false, []⟩
    | some (base, full, abb) =>
        match sheet_cache with
        | none => ⟨false, false, []⟩
        | some sheet_data =>
            match extract_items_from_sheet_data env.parseQ sheet_data row with
            | [] => ⟨true, true, []⟩
            | item0 :: rest =>
                ⟨(search_and_update_sales_orders env
                    (search_patterns base full abb) (item0 :: rest)).1,
                 (search_and_update_sales_orders env
                    (search_patterns base full abb) (item0 :: rest)).1,
                 (search_and_update_sales_orders env
                    (search_patterns base full abb) (item0 :: rest)).2⟩

/-- C10: a validated completed row whose item extraction yields the empty
list is reported successful and receives the success coloring, and no
order search, order read or order write is issued for it. -/
theorem C10_empty_extraction_success_no_calls (env : SOSEnv) (row : SheetRow)
    (sheet_data : List (List String)) (b f a : String)
    (hv : validate_row_data row = true)
    (hb : build_search_string ((get_column_b_value row).getD "")
        ((get_column_a_value row).getD "") = some (b, f, a))
    (he : extract_items_from_sheet_data env.parseQ sheet_data row = []) :
    process_completed_row env row (some sheet_data) = ⟨true, true, []⟩ := by
  rw [process_completed_row]
  rw [if_neg (by rw [hv]; decide)]
  rw [hb]
  dsimp only
  rw [he]

def c10Row : SheetRow :=
  { row_number := 7, data := ["2025-09-15", "HA 101", "", ""], headers := [],
    done_column_index := 0 }

def c10Sheet : List (List String) :=
  [["", "", "", ""], ["", "", "", ""], ["", "", "", ""]]

def c10Env : SOSEnv :=
  { searchResult := fun _ => none, fetchOrder := fun _ => none,
    putOk := fun _ => false, getPrice := fun _ => none,
    parseQ := fun _ => none, today := "2025-09-16" }

/-- C10 witness: the theorem applied to a concrete row with no item
quantities. -/
theorem C10_empty_extraction_success_no_calls_witness :
    process_completed_row c10Env c10Row (some c10Sheet) = ⟨true, true, []⟩ :=
  C10_empty_extraction_success_no_calls c10Env c10Row c10Sheet "HA 101"
    "September" "Sep" (by decide) (by decide) (by decide)

end SOSInv
